import Mathlib

/-!
Verification of the crypto-dashboard scan pipeline.

The development shallowly embeds the two source files of the repository:
src/backend/scanner.py (class CryptoTradingScanner) and src/app.py
(class Scanner).  Market values are modelled as exact rationals; a cell
of the fetched table is a JVal, whose non-numeric states model values
that are missing, NaN, or fail numeric coercion.  Python round() rounds
half to even; pyRound reproduces that convention exactly.  The base-10
logarithm used by the scoring features is irrational, so it enters the
embedding as an explicit oracle argument (lg), and the wall-clock
dependent quantities (the minute-of-hour time factor and the per-row
Gaussian jitter draws of numpy) enter as explicit arguments as well.
String-valued output fields (symbol, name, image and link URLs) and the
timestamp fields carry no decision logic and are omitted from the
result records.
-/

namespace CryptoScanner

/-- Round half to even, the convention of Python round() and numpy round(). -/
def pyRound (q : ℚ) : ℤ :=
  if q - ⌊q⌋ < 1/2 then ⌊q⌋
  else if 1/2 < q - ⌊q⌋ then ⌊q⌋ + 1
  else if ⌊q⌋ % 2 = 0 then ⌊q⌋ else ⌊q⌋ + 1

/-- Round to n decimal places, as Python round(x, n). -/
def roundTo (n : ℕ) (q : ℚ) : ℚ :=
  (pyRound (q * 10 ^ n) : ℚ) / 10 ^ n

/-- One cell of the fetched market table: a numeric value, a NaN (as
produced by pd.to_numeric with errors coerce), or a non-numeric value. -/
inductive JVal where
  | num : ℚ → JVal
  | nan : JVal
  | other : JVal
deriving DecidableEq

/-- Pandas comparison v >= c: false on NaN and non-numeric cells. -/
def jge (v : JVal) (c : ℚ) : Bool :=
  match v with
  | .num q => decide (c ≤ q)
  | _ => false

/-- Pandas comparison v <= c: false on NaN and non-numeric cells. -/
def jle (v : JVal) (c : ℚ) : Bool :=
  match v with
  | .num q => decide (q ≤ c)
  | _ => false

/-- Pandas comparison v > c (strict): false on NaN and non-numeric cells. -/
def jgt (v : JVal) (c : ℚ) : Bool :=
  match v with
  | .num q => decide (c < q)
  | _ => false

/-- pd.to_numeric with errors coerce: numeric cells survive, everything
else becomes NaN. -/
def to_num (v : JVal) : JVal :=
  match v with
  | .num q => .num q
  | _ => .nan

/-- The technical-indicator columns attached by calculate_technical:
rsi, rvol, ema_alignment, vwap_proximity, twitter_mentions,
news_sentiment. -/
structure Ind where
  rsi : ℚ
  rvol : ℚ
  ema_alignment : Bool
  vwap_proximity : ℚ
  twitter_mentions : ℚ
  news_sentiment : ℚ
deriving DecidableEq

/-- One row of the market table.  The four numeric columns used by the
filters are modelled; inds holds the indicator columns once
calculate_technical has attached them (none before that).  The id field
is the stable asset key. -/
structure RowX where
  id : ℕ
  current_price : JVal
  total_volume : JVal
  market_cap : JVal
  price_change_percentage_24h : JVal
  inds : Option Ind
deriving DecidableEq

/-- Numeric coercion of the four numeric columns of a row, as the loop
over numeric_cols in apply_filters. -/
def coerce_row (r : RowX) : RowX :=
  { r with
    current_price := to_num r.current_price
    total_volume := to_num r.total_volume
    market_cap := to_num r.market_cap
    price_change_percentage_24h := to_num r.price_change_percentage_24h }

/-- The scanner criteria as a configuration value (the self.criteria
dict of CryptoTradingScanner). -/
structure Criteria where
  price_min : ℚ
  price_max : ℚ
  volume_min : ℚ
  change_min : ℚ
  change_max : ℚ
  mcap_min : ℚ
  mcap_max : ℚ
  rsi_min : ℚ
  rsi_max : ℚ
  rvol_min : ℚ
  twitter_min : ℚ
  vwap_max : ℚ
  sentiment_min : ℚ
  ema_required : Bool
deriving DecidableEq

/-- The criteria dict built in CryptoTradingScanner init. -/
def scanner_criteria : Criteria :=
  { price_min := 0.001
    price_max := 100
    volume_min := 10000000
    change_min := 2
    change_max := 20
    mcap_min := 10000000
    mcap_max := 5000000000
    rsi_min := 50
    rsi_max := 70
    rvol_min := 2
    twitter_min := 10
    vwap_max := 2
    sentiment_min := 0.6
    ema_required := true }

/-- The coarse snapshot-level mask of apply_filters (price, volume,
change and market-cap bounds read from self.criteria). -/
def passes_coarse (c : Criteria) (r : RowX) : Bool :=
  jge r.current_price c.price_min &&
  jle r.current_price c.price_max &&
  jge r.total_volume c.volume_min &&
  jge r.price_change_percentage_24h c.change_min &&
  jle r.price_change_percentage_24h c.change_max &&
  jge r.market_cap c.mcap_min &&
  jle r.market_cap c.mcap_max

/-- The indicator-level mask of apply_filters (thresholds appear as
literals in the source: between(50, 70), rvol >= 2, ema truthy,
abs(vwap) <= 2, mentions >= 10, sentiment >= 0.6).  Rows without
indicator columns cannot pass. -/
def passes_tech (r : RowX) : Bool :=
  match r.inds with
  | some i =>
      (decide (50 ≤ i.rsi) && decide (i.rsi ≤ 70)) &&
      decide (2 ≤ i.rvol) &&
      i.ema_alignment &&
      decide (|i.vwap_proximity| ≤ 2) &&
      decide (10 ≤ i.twitter_mentions) &&
      decide (0.6 ≤ i.news_sentiment)
  | none => false

/-- The column assignments of calculate_technical, row by row: the
indicator generator ind supplies the values that np.random draws in the
source (one IndicatorSet per positional index). -/
def calculate_technical_go (ind : ℕ → Ind) : ℕ → List RowX → List RowX
  | _, [] => []
  | i, r :: rs => { r with inds := some (ind i) } :: calculate_technical_go ind (i + 1) rs

/-- calculate_technical of CryptoTradingScanner: returns the frame
unchanged when empty, otherwise attaches one indicator set per row. -/
def calculate_technical (ind : ℕ → Ind) (df : List RowX) : List RowX :=
  if df.isEmpty then df else calculate_technical_go ind 0 df

/-- apply_filters of CryptoTradingScanner (src/backend/scanner.py):
empty guard, numeric coercion on a copy (the df local), coarse mask
(the filtered local, written out in full below), indicator synthesis,
indicator mask (the final_filtered local). -/
def apply_filters (c : Criteria) (ind : ℕ → Ind) (df : List RowX) : List RowX :=
  if df.isEmpty then df
  else if (List.filter (passes_coarse c) (df.map coerce_row)).isEmpty then
    List.filter (passes_coarse c) (df.map coerce_row)
  else
    List.filter passes_tech
      (calculate_technical ind (List.filter (passes_coarse c) (df.map coerce_row)))

/-- apply_filters of the Scanner class in src/app.py: four sequential
masks over the raw frame (innermost first: price range, then strict
volume, then change range, then market-cap range). -/
def app_apply_filters (df : List RowX) : List RowX :=
  List.filter (fun r => jge r.market_cap 10000000 && jle r.market_cap 5000000000)
    (List.filter (fun r =>
        jge r.price_change_percentage_24h 2 && jle r.price_change_percentage_24h 20)
      (List.filter (fun r => jgt r.total_volume 10000000)
        (List.filter (fun r => jge r.current_price 0.001 && jle r.current_price 100) df)))

/-- np.clip of a scalar to the interval from lo to hi. -/
def np_clip (x lo hi : ℚ) : ℚ := min hi (max lo x)

/-- Numeric value of a cell; scoring only ever reaches rows whose
numeric columns survived coercion and the coarse filter. -/
def qval (v : JVal) : ℚ :=
  match v with
  | .num q => q
  | _ => 0

/-- Indicator columns of a row; scoring only ever reaches rows
annotated by calculate_technical. -/
def ind_of (r : RowX) : Ind :=
  match r.inds with
  | some i => i
  | none => { rsi := 0, rvol := 0, ema_alignment := false,
              vwap_proximity := 0, twitter_mentions := 0, news_sentiment := 0 }

/-- One row of calculate_ai_score: the five weighted features, the
minute-of-hour time factor scaled by 0.5, and the Gaussian jitter draw
j, clipped to the interval from 1 to 10 and rounded to one decimal.
lg is the base-10 logarithm oracle. -/
def ai_score_one (lg : ℚ → ℚ) (tf j : ℚ) (r : RowX) : ℚ :=
  roundTo 1 (np_clip
    ((qval r.price_change_percentage_24h / 100) * 0.3
      + (lg (qval r.total_volume) / 10) * 0.25
      + (lg (qval r.market_cap) / 12) * 0.15
      + ((ind_of r).rsi / 100) * 0.15
      + (ind_of r).news_sentiment * 0.15
      + tf * 0.5
      + j) 1 10)

/-- Positional traversal of calculate_ai_score over the frame, with one
jitter draw per row. -/
def ai_scores_go (lg : ℚ → ℚ) (tf : ℚ) (jit : ℕ → ℚ) : ℕ → List RowX → List ℚ
  | _, [] => []
  | i, r :: rs => ai_score_one lg tf (jit i) r :: ai_scores_go lg tf jit (i + 1) rs

/-- calculate_ai_score of CryptoTradingScanner: an empty frame yields
an empty series, otherwise one score per row. -/
def calculate_ai_score (lg : ℚ → ℚ) (tf : ℚ) (jit : ℕ → ℚ) (df : List RowX) : List ℚ :=
  if df.isEmpty then [] else ai_scores_go lg tf jit 0 df

/-- The volatility_factor local of generate_risk_assessment. -/
def volatility_factor (s : ℚ) : ℚ := (10 - s) / 20

/-- The stop_loss local of generate_risk_assessment, before rounding. -/
def stop_loss_raw (p s : ℚ) : ℚ := p * (1 - (0.02 + volatility_factor s))

/-- The take_profit local of generate_risk_assessment, before rounding. -/
def take_profit_raw (p s : ℚ) : ℚ := p * (1 + (0.04 + s / 50))

/-- The position_size local of generate_risk_assessment, before rounding. -/
def position_size_raw (s : ℚ) : ℚ := min 15 (s * 1.5)

/-- The risk_reward local of generate_risk_assessment: computed from
the unrounded stop_loss and take_profit. -/
def risk_reward_raw (p s : ℚ) : ℚ :=
  (take_profit_raw p s - p) / (p - stop_loss_raw p s)

/-- Decimal places used for price-denominated outputs: 6 below one
dollar, 4 otherwise. -/
def price_decimals (p : ℚ) : ℕ := if p < 1 then 6 else 4

/-- The dict returned by generate_risk_assessment. -/
structure RiskPlan where
  stop_loss : ℚ
  take_profit : ℚ
  position_size : ℚ
  risk_reward : ℚ
deriving DecidableEq

/-- generate_risk_assessment of CryptoTradingScanner, for a row with
current_price p and ai_score s. -/
def generate_risk_assessment (p s : ℚ) : RiskPlan :=
  { stop_loss := roundTo (price_decimals p) (stop_loss_raw p s)
    take_profit := roundTo (price_decimals p) (take_profit_raw p s)
    position_size := roundTo 1 (position_size_raw s)
    risk_reward := roundTo 2 (max 1 (risk_reward_raw p s)) }

/-- Outcome of one iteration body of the fetch_data retry loop: some df
when the request succeeded AND the payload validated as a non-empty
list (the isinstance check), none when the request raised or the
payload failed validation (the raised ValueError is caught by the same
except handler and retried). -/
def attempt_result (oc : ℕ → Option (List RowX)) (attempt : ℕ) : Option (List RowX) :=
  match oc attempt with
  | some df => if df.isEmpty then none else some df
  | none => none

/-- Result of fetch_data: the returned frame or the re-raised final
exception, together with the backoff sleeps performed (in seconds) and
the number of attempts made. -/
structure FetchOut where
  result : Except Unit (List RowX)
  sleeps : List ℕ
  attempts : ℕ

/-- The retry loop of fetch_data.  fuel counts the remaining loop
iterations (max_retries - attempt); on success the frame is returned at
once, on failure the final attempt re-raises while earlier attempts
sleep 3 ^ attempt seconds and continue.  When the loop runs out without
entering the body (max_retries = 0), the function falls through to
return an empty frame. -/
def fetch_go (oc : ℕ → Option (List RowX)) (mr : ℕ) : ℕ → ℕ → FetchOut
  | _, 0 => { result := .ok [], sleeps := [], attempts := 0 }
  | attempt, fuel + 1 =>
    match attempt_result oc attempt with
    | some df => { result := .ok df, sleeps := [], attempts := 1 }
    | none =>
      if attempt + 1 = mr then { result := .error (), sleeps := [], attempts := 1 }
      else
        let rest := fetch_go oc mr (attempt + 1) fuel
        { result := rest.result
          sleeps := 3 ^ attempt :: rest.sleeps
          attempts := rest.attempts + 1 }

/-- fetch_data of CryptoTradingScanner with max_retries mr; oc is the
oracle for the outcome of each network attempt. -/
def fetch_data (oc : ℕ → Option (List RowX)) (mr : ℕ) : FetchOut :=
  fetch_go oc mr 0 mr

/-- One record of the run_scan result list (numeric and boolean fields;
string and timestamp fields carry no decision logic). -/
structure Result where
  id : ℕ
  price : ℚ
  change_24h : ℚ
  volume : ℤ
  market_cap : ℤ
  ai_score : ℚ
  rsi : ℚ
  rvol : ℚ
  ema_alignment : Bool
  vwap_proximity : ℚ
  news_sentiment : ℚ
  twitter_mentions : ℚ
  risk : RiskPlan
deriving DecidableEq

/-- Assembly of one output record in the run_scan loop, from a filtered
row and its ai_score. -/
def assemble (r : RowX) (s : ℚ) : Result :=
  let p := qval r.current_price
  let i := ind_of r
  { id := r.id
    price := roundTo (price_decimals p) p
    change_24h := roundTo 2 (qval r.price_change_percentage_24h)
    volume := ⌊qval r.total_volume⌋
    market_cap := ⌊qval r.market_cap⌋
    ai_score := s
    rsi := i.rsi
    rvol := i.rvol
    ema_alignment := i.ema_alignment
    vwap_proximity := i.vwap_proximity
    news_sentiment := i.news_sentiment
    twitter_mentions := i.twitter_mentions
    risk := generate_risk_assessment p s }

/-- run_scan of CryptoTradingScanner: fetch (any raised exception is
caught by the outer except handler, which returns the empty list),
empty-frame guard, filters, empty guard, scoring, record assembly. -/
def run_scan (oc : ℕ → Option (List RowX)) (mr : ℕ) (c : Criteria) (ind : ℕ → Ind)
    (lg : ℚ → ℚ) (tf : ℚ) (jit : ℕ → ℚ) : List Result :=
  match (fetch_data oc mr).result with
  | .error _ => []
  | .ok df =>
    if df.isEmpty then []
    else
      let filtered := apply_filters c ind df
      if filtered.isEmpty then []
      else
        let scores := calculate_ai_score lg tf jit filtered
        (filtered.zip scores).map (fun rs => assemble rs.1 rs.2)

/-- A pandas frame in the heap model used for the mutation claim. -/
abbrev Df := List RowX

/-- Read a frame object from the heap by handle. -/
def heap_read (h : List Df) (i : ℕ) : Df := h.getD i []

/-- Overwrite a frame object in place (pandas column assignment). -/
def heap_write (h : List Df) (i : ℕ) (d : Df) : List Df := h.set i d

/-- Heap after df = df.copy(): a fresh frame (handle h.length) holding
a copy of the callers frame. -/
def afh1 (h : List Df) (src : ℕ) : List Df := h ++ [heap_read h src]

/-- Heap after the per-column pd.to_numeric assignments, which mutate
the copy in place. -/
def afh2 (h : List Df) (src : ℕ) : List Df :=
  heap_write (afh1 h src) h.length ((heap_read (afh1 h src) h.length).map coerce_row)

/-- Heap after the boolean-mask selection df[...]: a fresh frame
holding the coarse-filtered rows. -/
def afh3 (c : Criteria) (h : List Df) (src : ℕ) : List Df :=
  afh2 h src ++ [(heap_read (afh2 h src) h.length).filter (passes_coarse c)]

/-- Heap after .copy() on the selection (the filtered local). -/
def afh4 (c : Criteria) (h : List Df) (src : ℕ) : List Df :=
  afh3 c h src ++ [heap_read (afh3 c h src) (afh2 h src).length]

/-- Heap after calculate_technical, whose column assignments mutate the
filtered frame in place. -/
def afh5 (c : Criteria) (ind : ℕ → Ind) (h : List Df) (src : ℕ) : List Df :=
  heap_write (afh4 c h src) (afh3 c h src).length
    (calculate_technical ind (heap_read (afh4 c h src) (afh3 c h src).length))

/-- Heap after the final boolean-mask selection (the final_filtered
frame). -/
def afh6 (c : Criteria) (ind : ℕ → Ind) (h : List Df) (src : ℕ) : List Df :=
  afh5 c ind h src
    ++ [(heap_read (afh5 c ind h src) (afh3 c h src).length).filter passes_tech]

/-- apply_filters with object identity made explicit: the heap h holds
every live frame, src is the handle of the callers frame.  Appending
allocates (df.copy(), boolean-mask selection), heap_write mutates a
frame in place (the per-column to_numeric assignments, the column
assignments of calculate_technical); the afh1 to afh6 stages above name
the successive heaps.  Returns the final heap and the handle of the
returned frame. -/
def apply_filters_heap (c : Criteria) (ind : ℕ → Ind) (h : List Df) (src : ℕ) :
    List Df × ℕ :=
  if (heap_read h src).isEmpty then (h, src)
  else if (heap_read (afh4 c h src) (afh3 c h src).length).isEmpty then
    (afh4 c h src, (afh3 c h src).length)
  else (afh6 c ind h src, (afh5 c ind h src).length)

/-- Modelled from the spec, section 4.3 predicate 1: inclusive price
range. -/
def spec_pred_price (c : Criteria) (r : RowX) : Prop :=
  match r.current_price with
  | .num p => c.price_min ≤ p ∧ p ≤ c.price_max
  | _ => False

/-- Modelled from the spec, section 4.3 predicate 2: inclusive minimum
volume. -/
def spec_pred_volume (c : Criteria) (r : RowX) : Prop :=
  match r.total_volume with
  | .num v => c.volume_min ≤ v
  | _ => False

/-- Modelled from the spec, section 4.3 predicate 3: inclusive change
range. -/
def spec_pred_change (c : Criteria) (r : RowX) : Prop :=
  match r.price_change_percentage_24h with
  | .num v => c.change_min ≤ v ∧ v ≤ c.change_max
  | _ => False

/-- Modelled from the spec, section 4.3 predicate 4: inclusive market
cap range. -/
def spec_pred_mcap (c : Criteria) (r : RowX) : Prop :=
  match r.market_cap with
  | .num v => c.mcap_min ≤ v ∧ v ≤ c.mcap_max
  | _ => False

/-- Modelled from the spec, section 4.3 predicate 5: inclusive RSI
range. -/
def spec_pred_rsi (c : Criteria) (r : RowX) : Prop :=
  match r.inds with
  | some i => c.rsi_min ≤ i.rsi ∧ i.rsi ≤ c.rsi_max
  | none => False

/-- Modelled from the spec, section 4.3 predicate 6: inclusive minimum
relative volume. -/
def spec_pred_rvol (c : Criteria) (r : RowX) : Prop :=
  match r.inds with
  | some i => c.rvol_min ≤ i.rvol
  | none => False

/-- Modelled from the spec, section 4.3 predicate 7: EMA alignment as
required. -/
def spec_pred_ema (c : Criteria) (r : RowX) : Prop :=
  match r.inds with
  | some i => i.ema_alignment = c.ema_required
  | none => False

/-- Modelled from the spec, section 4.3 predicate 8: inclusive VWAP
proximity bound. -/
def spec_pred_vwap (c : Criteria) (r : RowX) : Prop :=
  match r.inds with
  | some i => |i.vwap_proximity| ≤ c.vwap_max
  | none => False

/-- Modelled from the spec, section 4.3 predicate 9: inclusive minimum
social mentions. -/
def spec_pred_mentions (c : Criteria) (r : RowX) : Prop :=
  match r.inds with
  | some i => c.twitter_min ≤ i.twitter_mentions
  | none => False

/-- Modelled from the spec, section 4.3 predicate 10: inclusive minimum
sentiment. -/
def spec_pred_sentiment (c : Criteria) (r : RowX) : Prop :=
  match r.inds with
  | some i => c.sentiment_min ≤ i.news_sentiment
  | none => False

/-- The strict volume comparison actually used by the app.py filter. -/
def app_pred_volume_strict (r : RowX) : Prop :=
  match r.total_volume with
  | .num v => 10000000 < v
  | _ => False

/-- Modelled from the spec, section 4.4: composite score as weighted
sum of the five normalized features plus the jitter term, clamped to
the interval from 1 to 10 and rounded to one decimal. -/
def spec_composite (m l sz st se j : ℚ) : ℚ :=
  roundTo 1 (np_clip (m * 0.3 + l * 0.25 + sz * 0.15 + st * 0.15 + se * 0.15 + j) 1 10)

/-- Concrete example row: the asset of the end-to-end scenario of spec
section 8 (price 5, volume 2e7, change 10, mcap 1e8). -/
def exRow : RowX :=
  { id := 1
    current_price := .num 5
    total_volume := .num 20000000
    market_cap := .num 100000000
    price_change_percentage_24h := .num 10
    inds := none }

/-- Concrete example indicator set of the same scenario (rsi 60, rvol
3, ema aligned, vwap 1, mentions 50, sentiment 0.8). -/
def exInd : Ind :=
  { rsi := 60
    rvol := 3
    ema_alignment := true
    vwap_proximity := 1
    twitter_mentions := 50
    news_sentiment := 0.8 }

/-- The example row after coercion and annotation, as it leaves
apply_filters. -/
def exRowA : RowX := { exRow with inds := some exInd }

/-- Concrete base-10 logarithm oracle for the example row: log10 of
2e7 is about 7.3, log10 of 1e8 is 8. -/
def exLog : ℚ → ℚ := fun q => if q = 20000000 then 73/10 else 8

/-- A row exactly at the volume threshold and strictly inside every
other bound. -/
def boundaryRow : RowX :=
  { id := 2
    current_price := .num 5
    total_volume := .num 10000000
    market_cap := .num 100000000
    price_change_percentage_24h := .num 10
    inds := none }

/-- A row that fails the filters (price above the maximum). -/
def badRow : RowX :=
  { id := 3
    current_price := .num 500
    total_volume := .num 20000000
    market_cap := .num 100000000
    price_change_percentage_24h := .num 10
    inds := none }

theorem floor_le_pyRound (q : ℚ) : ⌊q⌋ ≤ pyRound q := by
  unfold pyRound; split_ifs <;> omega

theorem pyRound_le_floor_add_one (q : ℚ) : pyRound q ≤ ⌊q⌋ + 1 := by
  unfold pyRound; split_ifs <;> omega

theorem pyRound_mono {x y : ℚ} (h : x ≤ y) : pyRound x ≤ pyRound y := by
  have hf : ⌊x⌋ ≤ ⌊y⌋ := Int.floor_mono h
  rcases lt_or_eq_of_le hf with hlt | heq
  · calc pyRound x ≤ ⌊x⌋ + 1 := pyRound_le_floor_add_one x
    _ ≤ ⌊y⌋ := by omega
    _ ≤ pyRound y := floor_le_pyRound y
  · unfold pyRound
    rw [← heq]
    have hxy : x - (⌊x⌋ : ℚ) ≤ y - (⌊x⌋ : ℚ) := by linarith
    split_ifs <;> try omega
    all_goals (exfalso; linarith)

theorem pyRound_intCast (z : ℤ) : pyRound (z : ℚ) = z := by
  unfold pyRound
  rw [Int.floor_intCast, sub_self]
  norm_num

theorem abs_pyRound_sub_le (q : ℚ) : |(pyRound q : ℚ) - q| ≤ 1/2 := by
  have h1 : (⌊q⌋ : ℚ) ≤ q := Int.floor_le q
  have h2 : q < ⌊q⌋ + 1 := Int.lt_floor_add_one q
  unfold pyRound
  split_ifs <;> rw [abs_le] <;> constructor <;> push_cast <;> linarith

theorem roundTo_mono (n : ℕ) {x y : ℚ} (h : x ≤ y) : roundTo n x ≤ roundTo n y := by
  have hp : (0 : ℚ) < 10 ^ n := by positivity
  have hm : pyRound (x * 10 ^ n) ≤ pyRound (y * 10 ^ n) :=
    pyRound_mono (mul_le_mul_of_nonneg_right h (le_of_lt hp))
  unfold roundTo
  exact (div_le_div_iff_of_pos_right hp).mpr (by exact_mod_cast hm)

theorem roundTo_intCast (n : ℕ) (z : ℤ) : roundTo n (z : ℚ) = z := by
  unfold roundTo
  rw [show (z : ℚ) * 10 ^ n = ((z * 10 ^ n : ℤ) : ℚ) by push_cast; ring, pyRound_intCast]
  have hp : (0 : ℚ) < 10 ^ n := by positivity
  push_cast
  field_simp

theorem abs_roundTo_sub_le (n : ℕ) (q : ℚ) : |roundTo n q - q| ≤ 1 / (2 * 10 ^ n) := by
  have hp : (0 : ℚ) < 10 ^ n := by positivity
  have h := abs_pyRound_sub_le (q * 10 ^ n)
  unfold roundTo
  rw [show (pyRound (q * 10 ^ n) : ℚ) / 10 ^ n - q
        = ((pyRound (q * 10 ^ n) : ℚ) - q * 10 ^ n) / 10 ^ n by field_simp; ring]
  rw [abs_div, abs_of_pos hp, div_le_div_iff₀ hp (by positivity : (0 : ℚ) < 2 * 10 ^ n)]
  have h2 : |(pyRound (q * 10 ^ n) : ℚ) - q * 10 ^ n| * (2 * 10 ^ n) ≤ (1/2) * (2 * 10 ^ n) :=
    mul_le_mul_of_nonneg_right h (by positivity)
  linarith

theorem roundTo_bounds (n : ℕ) (q : ℚ) :
    q - 1 / (2 * 10 ^ n) ≤ roundTo n q ∧ roundTo n q ≤ q + 1 / (2 * 10 ^ n) := by
  have h := abs_roundTo_sub_le n q
  rw [abs_le] at h
  constructor <;> linarith [h.1, h.2]

theorem roundTo_one_eq (n : ℕ) : roundTo n 1 = 1 := by
  have := roundTo_intCast n 1
  simpa using this

theorem pyRound_eq_low {q : ℚ} {z : ℤ} (h1 : (z : ℚ) ≤ q) (h2 : q < (z : ℚ) + 1/2) :
    pyRound q = z := by
  have hf : ⌊q⌋ = z := Int.floor_eq_iff.mpr ⟨h1, by linarith⟩
  unfold pyRound
  rw [hf, if_pos (by push_cast; linarith)]

theorem pyRound_eq_high {q : ℚ} {z : ℤ} (h1 : (z : ℚ) + 1/2 < q) (h2 : q < (z : ℚ) + 1) :
    pyRound q = z + 1 := by
  have hf : ⌊q⌋ = z := Int.floor_eq_iff.mpr ⟨by linarith, by linarith⟩
  unfold pyRound
  rw [hf, if_neg (by push_cast; linarith), if_pos (by push_cast; linarith)]

theorem spec_pred_price_of {c : Criteria} {r : RowX}
    (h1 : jge r.current_price c.price_min = true)
    (h2 : jle r.current_price c.price_max = true) : spec_pred_price c r := by
  unfold spec_pred_price
  cases hv : r.current_price with
  | num q => rw [hv] at h1 h2; simp [jge, jle] at h1 h2; exact ⟨h1, h2⟩
  | nan => rw [hv] at h1; simp [jge] at h1
  | other => rw [hv] at h1; simp [jge] at h1

theorem spec_pred_volume_of {c : Criteria} {r : RowX}
    (h : jge r.total_volume c.volume_min = true) : spec_pred_volume c r := by
  unfold spec_pred_volume
  cases hv : r.total_volume with
  | num q => rw [hv] at h; simp [jge] at h; exact h
  | nan => rw [hv] at h; simp [jge] at h
  | other => rw [hv] at h; simp [jge] at h

theorem spec_pred_change_of {c : Criteria} {r : RowX}
    (h1 : jge r.price_change_percentage_24h c.change_min = true)
    (h2 : jle r.price_change_percentage_24h c.change_max = true) : spec_pred_change c r := by
  unfold spec_pred_change
  cases hv : r.price_change_percentage_24h with
  | num q => rw [hv] at h1 h2; simp [jge, jle] at h1 h2; exact ⟨h1, h2⟩
  | nan => rw [hv] at h1; simp [jge] at h1
  | other => rw [hv] at h1; simp [jge] at h1

theorem spec_pred_mcap_of {c : Criteria} {r : RowX}
    (h1 : jge r.market_cap c.mcap_min = true)
    (h2 : jle r.market_cap c.mcap_max = true) : spec_pred_mcap c r := by
  unfold spec_pred_mcap
  cases hv : r.market_cap with
  | num q => rw [hv] at h1 h2; simp [jge, jle] at h1 h2; exact ⟨h1, h2⟩
  | nan => rw [hv] at h1; simp [jge] at h1
  | other => rw [hv] at h1; simp [jge] at h1

theorem app_pred_volume_strict_of {r : RowX}
    (h : jgt r.total_volume 10000000 = true) : app_pred_volume_strict r := by
  unfold app_pred_volume_strict
  cases hv : r.total_volume with
  | num q => rw [hv] at h; simp [jgt] at h; exact h
  | nan => rw [hv] at h; simp [jgt] at h
  | other => rw [hv] at h; simp [jgt] at h

theorem coarse_of_passes {c : Criteria} {r : RowX} (h : passes_coarse c r = true) :
    spec_pred_price c r ∧ spec_pred_volume c r ∧ spec_pred_change c r ∧ spec_pred_mcap c r := by
  simp only [passes_coarse, Bool.and_eq_true] at h
  obtain ⟨⟨⟨⟨⟨⟨h1, h2⟩, h3⟩, h4⟩, h5⟩, h6⟩, h7⟩ := h
  exact ⟨spec_pred_price_of h1 h2, spec_pred_volume_of h3,
    spec_pred_change_of h4 h5, spec_pred_mcap_of h6 h7⟩

theorem tech_of_passes {r : RowX} (h : passes_tech r = true) :
    spec_pred_rsi scanner_criteria r ∧ spec_pred_rvol scanner_criteria r
    ∧ spec_pred_ema scanner_criteria r ∧ spec_pred_vwap scanner_criteria r
    ∧ spec_pred_mentions scanner_criteria r ∧ spec_pred_sentiment scanner_criteria r := by
  unfold passes_tech at h
  cases hi : r.inds with
  | none => rw [hi] at h; simp at h
  | some i =>
    rw [hi] at h
    simp only [Bool.and_eq_true, decide_eq_true_eq] at h
    obtain ⟨⟨⟨⟨⟨⟨hr1, hr2⟩, hv⟩, he⟩, hw⟩, hm⟩, hs⟩ := h
    unfold spec_pred_rsi spec_pred_rvol spec_pred_ema spec_pred_vwap
      spec_pred_mentions spec_pred_sentiment
    rw [hi]
    exact ⟨⟨hr1, hr2⟩, hv, he, hw, hm, hs⟩

theorem ct_go_map_id (ind : ℕ → Ind) (i : ℕ) (l : List RowX) :
    (calculate_technical_go ind i l).map RowX.id = l.map RowX.id := by
  induction l generalizing i with
  | nil => rfl
  | cons r rs ih => simp [calculate_technical_go, ih]

theorem mem_ct_go {ind : ℕ → Ind} {i : ℕ} {l : List RowX} {r : RowX}
    (h : r ∈ calculate_technical_go ind i l) :
    ∃ r0 ∈ l, ∃ j, r = { r0 with inds := some (ind j) } := by
  induction l generalizing i with
  | nil => simp [calculate_technical_go] at h
  | cons a as ih =>
    simp only [calculate_technical_go, List.mem_cons] at h
    rcases h with h | h
    · exact ⟨a, List.mem_cons_self a as, i, h⟩
    · obtain ⟨r0, hr0, j, hj⟩ := ih h
      exact ⟨r0, List.mem_cons_of_mem _ hr0, j, hj⟩

theorem map_id_coerce (df : List RowX) :
    (df.map coerce_row).map RowX.id = df.map RowX.id := by
  rw [List.map_map]
  rfl

/-- Claim C1 (amended): every row returned by CryptoTradingScanner
apply_filters satisfies all ten threshold predicates of spec section
4.3 with inclusive boundaries, and the output is an order-preserving
subset of the input rows; the Scanner class of app.py applies only the
four snapshot-level predicates, its volume comparison being strict
rather than inclusive. -/
theorem claim_C1 (df : List RowX) (ind : ℕ → Ind) :
    ((apply_filters scanner_criteria ind df).map RowX.id).Sublist (df.map RowX.id)
    ∧ (∀ r ∈ apply_filters scanner_criteria ind df,
        spec_pred_price scanner_criteria r ∧ spec_pred_volume scanner_criteria r
        ∧ spec_pred_change scanner_criteria r ∧ spec_pred_mcap scanner_criteria r
        ∧ spec_pred_rsi scanner_criteria r ∧ spec_pred_rvol scanner_criteria r
        ∧ spec_pred_ema scanner_criteria r ∧ spec_pred_vwap scanner_criteria r
        ∧ spec_pred_mentions scanner_criteria r ∧ spec_pred_sentiment scanner_criteria r)
    ∧ ((app_apply_filters df).map RowX.id).Sublist (df.map RowX.id)
    ∧ (∀ r ∈ app_apply_filters df,
        spec_pred_price scanner_criteria r ∧ app_pred_volume_strict r
        ∧ spec_pred_change scanner_criteria r ∧ spec_pred_mcap scanner_criteria r) := by
  refine ⟨?_, ?_, ?_, ?_⟩
  · by_cases h1 : df.isEmpty = true
    · unfold apply_filters
      rw [if_pos h1]
    · unfold apply_filters
      rw [if_neg h1]
      by_cases h2 :
          (List.filter (passes_coarse scanner_criteria) (df.map coerce_row)).isEmpty = true
      · rw [if_pos h2, List.isEmpty_iff.mp h2]
        exact List.nil_sublist _
      · rw [if_neg h2]
        unfold calculate_technical
        rw [if_neg h2]
        have s1 := List.Sublist.map RowX.id
          (List.filter_sublist (p := passes_tech)
            (calculate_technical_go ind 0
              (List.filter (passes_coarse scanner_criteria) (df.map coerce_row))))
        rw [ct_go_map_id ind 0
          (List.filter (passes_coarse scanner_criteria) (df.map coerce_row))] at s1
        have s2 := List.Sublist.map RowX.id
          (List.filter_sublist (p := passes_coarse scanner_criteria) (df.map coerce_row))
        rw [map_id_coerce df] at s2
        exact s1.trans s2
  · intro r hr
    by_cases h1 : df.isEmpty = true
    · unfold apply_filters at hr
      rw [if_pos h1, List.isEmpty_iff.mp h1] at hr
      simp at hr
    · unfold apply_filters at hr
      rw [if_neg h1] at hr
      by_cases h2 :
          (List.filter (passes_coarse scanner_criteria) (df.map coerce_row)).isEmpty = true
      · rw [if_pos h2, List.isEmpty_iff.mp h2] at hr
        simp at hr
      · rw [if_neg h2] at hr
        unfold calculate_technical at hr
        rw [if_neg h2] at hr
        rw [List.mem_filter] at hr
        obtain ⟨hmem, htech⟩ := hr
        obtain ⟨r0, hr0, j, hj⟩ := mem_ct_go hmem
        rw [List.mem_filter] at hr0
        obtain ⟨hcoarse1, hcoarse2⟩ := hr0
        have hc := coarse_of_passes hcoarse2
        have ht := tech_of_passes htech
        subst hj
        exact ⟨hc.1, hc.2.1, hc.2.2.1, hc.2.2.2,
          ht.1, ht.2.1, ht.2.2.1, ht.2.2.2.1, ht.2.2.2.2.1, ht.2.2.2.2.2⟩
  · unfold app_apply_filters
    exact List.Sublist.map RowX.id
      (((List.filter_sublist _).trans ((List.filter_sublist _).trans
        (List.filter_sublist _))).trans (List.filter_sublist _))
  · intro r hr
    unfold app_apply_filters at hr
    simp only [List.mem_filter, Bool.and_eq_true] at hr
    obtain ⟨⟨⟨⟨_, hp1, hp2⟩, hvol⟩, hch1, hch2⟩, hmc1, hmc2⟩ := hr
    exact ⟨spec_pred_price_of hp1 hp2, app_pred_volume_strict_of hvol,
      spec_pred_change_of hch1 hch2, spec_pred_mcap_of hmc1 hmc2⟩

/-- Witness for claim C1: the scenario row of spec section 8 passes the
scanner filter and the resulting row indeed satisfies all ten
predicates. -/
theorem claim_C1_witness :
    spec_pred_price scanner_criteria exRowA ∧ spec_pred_volume scanner_criteria exRowA
    ∧ spec_pred_change scanner_criteria exRowA ∧ spec_pred_mcap scanner_criteria exRowA
    ∧ spec_pred_rsi scanner_criteria exRowA ∧ spec_pred_rvol scanner_criteria exRowA
    ∧ spec_pred_ema scanner_criteria exRowA ∧ spec_pred_vwap scanner_criteria exRowA
    ∧ spec_pred_mentions scanner_criteria exRowA ∧ spec_pred_sentiment scanner_criteria exRowA :=
  (claim_C1 [exRow] (fun _ => exInd)).2.1 exRowA (by
    have h : apply_filters scanner_criteria (fun _ => exInd) [exRow] = [exRowA] := by
      norm_num [apply_filters, calculate_technical, calculate_technical_go, coerce_row, to_num,
        passes_coarse, passes_tech, scanner_criteria, jge, jle, exRow, exRowA, exInd,
        List.filter]
    rw [h]
    exact List.mem_singleton_self exRowA)

/-- Counterexample for claim C1 as stated: a row exactly at the volume
threshold satisfies the four inclusive snapshot predicates of spec
section 4.3, yet the app.py filter stage rejects it, because its volume
comparison is strict rather than inclusive. -/
theorem claim_C1_counterexample :
    spec_pred_price scanner_criteria boundaryRow
    ∧ spec_pred_volume scanner_criteria boundaryRow
    ∧ spec_pred_change scanner_criteria boundaryRow
    ∧ spec_pred_mcap scanner_criteria boundaryRow
    ∧ app_apply_filters [boundaryRow] = [] := by
  refine ⟨?_, ?_, ?_, ?_, by
    norm_num [app_apply_filters, boundaryRow, jge, jle, jgt, List.filter]⟩
  · show (0.001 : ℚ) ≤ 5 ∧ (5 : ℚ) ≤ 100
    norm_num
  · show (10000000 : ℚ) ≤ 10000000
    norm_num
  · show (2 : ℚ) ≤ 10 ∧ (10 : ℚ) ≤ 20
    norm_num
  · show (10000000 : ℚ) ≤ 100000000 ∧ (100000000 : ℚ) ≤ 5000000000
    norm_num

/-- Claim C2 (amended): the composite score equals the weighted sum of
the five normalized features with weights 0.30, 0.25, 0.15, 0.15, 0.15
(summing to one) PLUS the deterministic minute-of-hour time term scaled
by 0.5 PLUS the Gaussian jitter draw, clipped to the interval from 1 to
10 and rounded to one decimal; equivalently, the score agrees with the
spec composite formula only when the time term is absorbed into the
jitter. -/
theorem claim_C2 (lg : ℚ → ℚ) (tf j : ℚ) (r : RowX) :
    ai_score_one lg tf j r
      = roundTo 1 (np_clip
          ((qval r.price_change_percentage_24h / 100) * 0.3
            + (lg (qval r.total_volume) / 10) * 0.25
            + (lg (qval r.market_cap) / 12) * 0.15
            + ((ind_of r).rsi / 100) * 0.15
            + (ind_of r).news_sentiment * 0.15
            + tf * 0.5
            + j) 1 10)
    ∧ ai_score_one lg tf j r
      = spec_composite (qval r.price_change_percentage_24h / 100)
          (lg (qval r.total_volume) / 10) (lg (qval r.market_cap) / 12)
          ((ind_of r).rsi / 100) (ind_of r).news_sentiment (tf * 0.5 + j)
    ∧ (0.3 + 0.25 + 0.15 + 0.15 + 0.15 : ℚ) = 1 := by
  refine ⟨rfl, ?_, by norm_num⟩
  unfold ai_score_one spec_composite
  congr 1
  unfold np_clip
  congr 1
  congr 1
  ring

/-- Counterexample for claim C2 as stated: at a concrete candidate, a
concrete jitter draw, and a nonzero time factor, the code score (2.8)
differs from the spec composite of the same features and the same
jitter (2.6), so a term other than the five weighted features and the
jitter contributes. -/
theorem claim_C2_counterexample :
    ai_score_one exLog (1/2) (203/100) exRowA = 14/5
    ∧ spec_composite (1/10) (73/100) (2/3) (3/5) (4/5) (203/100) = 13/5
    ∧ (14/5 : ℚ) ≠ 13/5 := by
  refine ⟨?_, ?_, by norm_num⟩
  · unfold ai_score_one
    have h1 : (qval exRowA.price_change_percentage_24h / 100) * 0.3
        + (exLog (qval exRowA.total_volume) / 10) * 0.25
        + (exLog (qval exRowA.market_cap) / 12) * 0.15
        + ((ind_of exRowA).rsi / 100) * 0.15
        + (ind_of exRowA).news_sentiment * 0.15
        + (1/2 : ℚ) * 0.5
        + 203/100 = 1121/400 := by
      norm_num [exRowA, exRow, exInd, exLog, qval, ind_of]
    rw [h1]
    have h2 : np_clip (1121/400) 1 10 = 1121/400 := by
      unfold np_clip
      rw [max_eq_right (by norm_num), min_eq_right (by norm_num)]
    rw [h2]
    unfold roundTo
    rw [show (1121/400 : ℚ) * 10 ^ 1 = 1121/40 by norm_num,
      pyRound_eq_low (z := 28) (by norm_num) (by norm_num)]
    norm_num
  · unfold spec_composite
    have h1 : (1/10 : ℚ) * 0.3 + (73/100 : ℚ) * 0.25 + (2/3 : ℚ) * 0.15
        + (3/5 : ℚ) * 0.15 + (4/5 : ℚ) * 0.15 + 203/100 = 1021/400 := by norm_num
    rw [h1]
    have h2 : np_clip (1021/400) 1 10 = 1021/400 := by
      unfold np_clip
      rw [max_eq_right (by norm_num), min_eq_right (by norm_num)]
    rw [h2]
    unfold roundTo
    rw [show (1021/400 : ℚ) * 10 ^ 1 = 1021/40 by norm_num,
      pyRound_eq_high (z := 25) (by norm_num) (by norm_num)]
    norm_num

/-- Claim C3: for every well-formed candidate, every logarithm oracle,
every time factor and every jitter draw, the score lies in the interval
from 1 to 10; an empty candidate frame yields an empty score sequence. -/
theorem claim_C3 (lg : ℚ → ℚ) (tf j : ℚ) (jit : ℕ → ℚ) (r : RowX)
    (hp : 0 < qval r.current_price) (hv : 0 < qval r.total_volume)
    (hm : 0 < qval r.market_cap) (hr1 : 0 ≤ (ind_of r).rsi) (hr2 : (ind_of r).rsi ≤ 100)
    (hs1 : 0 ≤ (ind_of r).news_sentiment) (hs2 : (ind_of r).news_sentiment ≤ 1) :
    (1 ≤ ai_score_one lg tf j r ∧ ai_score_one lg tf j r ≤ 10)
    ∧ calculate_ai_score lg tf jit [] = [] := by
  refine ⟨⟨?_, ?_⟩, rfl⟩
  · unfold ai_score_one
    have h1 : (1 : ℚ) ≤ np_clip
        ((qval r.price_change_percentage_24h / 100) * 0.3
          + (lg (qval r.total_volume) / 10) * 0.25
          + (lg (qval r.market_cap) / 12) * 0.15
          + ((ind_of r).rsi / 100) * 0.15
          + (ind_of r).news_sentiment * 0.15
          + tf * 0.5
          + j) 1 10 := by
      unfold np_clip
      exact le_min (by norm_num) (le_max_left 1 _)
    calc (1 : ℚ) = roundTo 1 1 := (roundTo_one_eq 1).symm
      _ ≤ _ := roundTo_mono 1 h1
  · unfold ai_score_one
    have h2 : np_clip
        ((qval r.price_change_percentage_24h / 100) * 0.3
          + (lg (qval r.total_volume) / 10) * 0.25
          + (lg (qval r.market_cap) / 12) * 0.15
          + ((ind_of r).rsi / 100) * 0.15
          + (ind_of r).news_sentiment * 0.15
          + tf * 0.5
          + j) 1 10 ≤ 10 := min_le_left 10 _
    calc roundTo 1 _ ≤ roundTo 1 10 := roundTo_mono 1 h2
      _ = 10 := by
        have := roundTo_intCast 1 10
        simpa using this

/-- Witness for claim C3: the scenario candidate satisfies the
well-formedness hypotheses and its score is within bounds. -/
theorem claim_C3_witness :
    (1 ≤ ai_score_one exLog (1/2) (203/100) exRowA
      ∧ ai_score_one exLog (1/2) (203/100) exRowA ≤ 10)
    ∧ calculate_ai_score exLog (1/2) (fun _ => 203/100) [] = [] :=
  claim_C3 exLog (1/2) (203/100) (fun _ => 203/100) exRowA
    (by norm_num [qval, exRowA, exRow]) (by norm_num [qval, exRowA, exRow])
    (by norm_num [qval, exRowA, exRow]) (by norm_num [ind_of, exRowA, exRow, exInd])
    (by norm_num [ind_of, exRowA, exRow, exInd]) (by norm_num [ind_of, exRowA, exRow, exInd])
    (by norm_num [ind_of, exRowA, exRow, exInd])

theorem roundTo_lt_of_margin {n : ℕ} {x p m : ℚ} (hx : p + m ≤ x) (hm : 1/(2 * 10 ^ n) < m) :
    p < roundTo n x := by
  have hb := (roundTo_bounds n x).1
  linarith

theorem roundTo_gt_of_margin {n : ℕ} {x p m : ℚ} (hx : x ≤ p - m) (hm : 1/(2 * 10 ^ n) < m) :
    roundTo n x < p := by
  have hb := (roundTo_bounds n x).2
  linarith

/-- Claim C4 (amended): the risk plan fields are the rounded values of
stop_loss = p * (1 - (0.02 + (10 - s)/20)), take_profit =
p * (1 + (0.04 + s/50)) and position_size = min(15, s * 1.5): the
configured constants are base_sl = 0.02 and base_tp = 0.04, but the
score-dependent slopes are (10 - s)/20 and s/50 rather than the
(10 - s)/100 and s/100 of the spec, and cap = 15, multiplier = 1.5. -/
theorem claim_C4 (p s : ℚ) :
    (generate_risk_assessment p s).stop_loss
      = roundTo (price_decimals p) (p * (1 - (0.02 + (10 - s) / 20)))
    ∧ (generate_risk_assessment p s).take_profit
      = roundTo (price_decimals p) (p * (1 + (0.04 + s / 50)))
    ∧ (generate_risk_assessment p s).position_size = roundTo 1 (min 15 (s * 1.5)) :=
  ⟨rfl, rfl, rfl⟩

/-- Counterexample for claim C4 as stated: no constant base_sl can make
the stop-loss formula of the spec match the code at both ai_score 10
and ai_score 5 for price 100 (the code yields 98 and 73, the spec
formula would need base_sl = 0.02 and base_sl = 0.22 at once). -/
theorem claim_C4_counterexample :
    ¬ ∃ base_sl : ℚ,
        (generate_risk_assessment 100 10).stop_loss = 100 * (1 - (base_sl + (10 - 10) / 100))
        ∧ (generate_risk_assessment 100 5).stop_loss = 100 * (1 - (base_sl + (10 - 5) / 100)) := by
  rintro ⟨b, h1, h2⟩
  have e1 : (generate_risk_assessment 100 10).stop_loss = 98 := by
    show roundTo (price_decimals 100) (stop_loss_raw 100 10) = 98
    rw [show price_decimals 100 = 4 by norm_num [price_decimals],
      show stop_loss_raw 100 10 = 98 by norm_num [stop_loss_raw, volatility_factor]]
    exact_mod_cast roundTo_intCast 4 98
  have e2 : (generate_risk_assessment 100 5).stop_loss = 73 := by
    show roundTo (price_decimals 100) (stop_loss_raw 100 5) = 73
    rw [show price_decimals 100 = 4 by norm_num [price_decimals],
      show stop_loss_raw 100 5 = 73 by norm_num [stop_loss_raw, volatility_factor]]
    exact_mod_cast roundTo_intCast 4 73
  rw [e1] at h1
  rw [e2] at h2
  linarith

/-- Claim C5 (amended): for current_price at or above the scanner price
minimum 0.001 and ai_score in the interval from 1 to 10, the rounded
risk plan satisfies take_profit above the price and stop_loss below the
price. -/
theorem claim_C5 (p s : ℚ) (hp : 1/1000 ≤ p) (hs1 : 1 ≤ s) (hs2 : s ≤ 10) :
    p < (generate_risk_assessment p s).take_profit
    ∧ (generate_risk_assessment p s).stop_loss < p := by
  have h0p : (0 : ℚ) ≤ p := le_trans (by norm_num) hp
  have hraw_tp : take_profit_raw p s - p = p * (0.04 + s / 50) := by
    unfold take_profit_raw; ring
  have hraw_sl : p - stop_loss_raw p s = p * (0.02 + (10 - s) / 20) := by
    unfold stop_loss_raw volatility_factor; ring
  have hfac_tp : (3/50 : ℚ) ≤ 0.04 + s / 50 := by
    rw [show (0.04 : ℚ) = 1/25 by norm_num]; linarith
  have hfac_sl : (1/50 : ℚ) ≤ 0.02 + (10 - s) / 20 := by
    rw [show (0.02 : ℚ) = 1/50 by norm_num]; linarith
  have hmar_tp : p * (3/50) ≤ p * (0.04 + s / 50) := mul_le_mul_of_nonneg_left hfac_tp h0p
  have hmar_sl : p * (1/50) ≤ p * (0.02 + (10 - s) / 20) := mul_le_mul_of_nonneg_left hfac_sl h0p
  have htp : (generate_risk_assessment p s).take_profit
      = roundTo (price_decimals p) (take_profit_raw p s) := rfl
  have hsl : (generate_risk_assessment p s).stop_loss
      = roundTo (price_decimals p) (stop_loss_raw p s) := rfl
  rw [htp, hsl]
  rcases lt_or_le p 1 with h1 | h1
  · rw [show price_decimals p = 6 by unfold price_decimals; rw [if_pos h1]]
    constructor
    · refine roundTo_lt_of_margin (m := 3/50000) ?_ (by norm_num)
      have : (1/1000 : ℚ) * (3/50) ≤ p * (3/50) :=
        mul_le_mul_of_nonneg_right hp (by norm_num)
      linarith
    · refine roundTo_gt_of_margin (m := 1/50000) ?_ (by norm_num)
      have : (1/1000 : ℚ) * (1/50) ≤ p * (1/50) :=
        mul_le_mul_of_nonneg_right hp (by norm_num)
      linarith
  · rw [show price_decimals p = 4 by unfold price_decimals; rw [if_neg (not_lt.mpr h1)]]
    constructor
    · refine roundTo_lt_of_margin (m := 3/50) ?_ (by norm_num)
      have : (1 : ℚ) * (3/50) ≤ p * (3/50) := mul_le_mul_of_nonneg_right h1 (by norm_num)
      linarith
    · refine roundTo_gt_of_margin (m := 1/50) ?_ (by norm_num)
      have : (1 : ℚ) * (1/50) ≤ p * (1/50) := mul_le_mul_of_nonneg_right h1 (by norm_num)
      linarith

/-- Witness for claim C5: the scenario price 5 and score 7. -/
theorem claim_C5_witness :
    ((1/1000 : ℚ) ≤ 5 ∧ (1 : ℚ) ≤ 7 ∧ (7 : ℚ) ≤ 10)
    ∧ ((5 : ℚ) < (generate_risk_assessment 5 7).take_profit
        ∧ (generate_risk_assessment 5 7).stop_loss < 5) :=
  ⟨⟨by norm_num, by norm_num, by norm_num⟩,
    claim_C5 5 7 (by norm_num) (by norm_num) (by norm_num)⟩

/-- Counterexample for claim C5 as stated: at the positive price
0.000001 and ai_score 10, rounding to six decimal places lands the
stop_loss exactly on the price, so the strict inequality of the claim
fails although the price is positive and the score is in range. -/
theorem claim_C5_counterexample :
    (0 : ℚ) < 1/1000000 ∧ (1 : ℚ) ≤ 10 ∧ (10 : ℚ) ≤ 10
    ∧ (generate_risk_assessment (1/1000000) 10).stop_loss = 1/1000000
    ∧ ¬ ((generate_risk_assessment (1/1000000) 10).stop_loss < 1/1000000) := by
  have e : (generate_risk_assessment (1/1000000) 10).stop_loss = 1/1000000 := by
    show roundTo (price_decimals (1/1000000)) (stop_loss_raw (1/1000000) 10) = 1/1000000
    rw [show price_decimals (1/1000000 : ℚ) = 6 by
        unfold price_decimals; rw [if_pos (by norm_num)],
      show stop_loss_raw (1/1000000) 10 = 49/50000000 by
        norm_num [stop_loss_raw, volatility_factor]]
    unfold roundTo
    rw [show (49/50000000 : ℚ) * 10 ^ 6 = 49/50 by norm_num,
      pyRound_eq_high (z := 0) (by norm_num) (by norm_num)]
    norm_num
  exact ⟨by norm_num, by norm_num, by norm_num, e, by rw [e]; exact lt_irrefl _⟩

/-- Claim C6 (amended): for identical price at or above the scanner
price minimum and one-decimal score resolution (a at least b + 0.1,
both in range), the higher score gives a strictly closer stop-loss, a
take-profit at least as high, and a position size at least as large. -/
theorem claim_C6 (p a b : ℚ) (hp : 1/1000 ≤ p) (hb1 : 1 ≤ b) (ha2 : a ≤ 10)
    (hab : b + 1/10 ≤ a) :
    p - (generate_risk_assessment p a).stop_loss
        < p - (generate_risk_assessment p b).stop_loss
    ∧ (generate_risk_assessment p b).take_profit ≤ (generate_risk_assessment p a).take_profit
    ∧ (generate_risk_assessment p b).position_size
        ≤ (generate_risk_assessment p a).position_size := by
  have h0p : (0 : ℚ) ≤ p := le_trans (by norm_num) hp
  have hdiff : stop_loss_raw p a - stop_loss_raw p b = p * (a - b) / 20 := by
    unfold stop_loss_raw volatility_factor; ring
  have hmargin : p / 200 ≤ stop_loss_raw p a - stop_loss_raw p b := by
    rw [hdiff]
    have : p * (1/10) ≤ p * (a - b) := mul_le_mul_of_nonneg_left (by linarith) h0p
    linarith
  have htp_raw : take_profit_raw p b ≤ take_profit_raw p a := by
    have h : take_profit_raw p a - take_profit_raw p b = p * (a - b) / 50 := by
      unfold take_profit_raw; ring
    have h2 : (0 : ℚ) ≤ p * (a - b) := mul_nonneg h0p (by linarith)
    linarith
  have hps_raw : position_size_raw b ≤ position_size_raw a := by
    unfold position_size_raw
    exact min_le_min (le_refl 15) (by nlinarith [hab])
  have ea : (generate_risk_assessment p a).stop_loss
      = roundTo (price_decimals p) (stop_loss_raw p a) := rfl
  have eb : (generate_risk_assessment p b).stop_loss
      = roundTo (price_decimals p) (stop_loss_raw p b) := rfl
  have eta2 : (generate_risk_assessment p a).take_profit
      = roundTo (price_decimals p) (take_profit_raw p a) := rfl
  have etb : (generate_risk_assessment p b).take_profit
      = roundTo (price_decimals p) (take_profit_raw p b) := rfl
  have epa : (generate_risk_assessment p a).position_size
      = roundTo 1 (position_size_raw a) := rfl
  have epb : (generate_risk_assessment p b).position_size
      = roundTo 1 (position_size_raw b) := rfl
  rw [ea, eb, eta2, etb, epa, epb]
  refine ⟨?_, roundTo_mono _ htp_raw, roundTo_mono 1 hps_raw⟩
  rcases lt_or_le p 1 with h1 | h1
  · rw [show price_decimals p = 6 by unfold price_decimals; rw [if_pos h1]]
    have hba := (roundTo_bounds 6 (stop_loss_raw p a)).1
    have hbb := (roundTo_bounds 6 (stop_loss_raw p b)).2
    have hplow : (1/200000 : ℚ) ≤ p / 200 := by linarith
    have hpow : ((10 : ℚ)) ^ 6 = 1000000 := by norm_num
    rw [hpow] at hba hbb
    linarith
  · rw [show price_decimals p = 4 by unfold price_decimals; rw [if_neg (not_lt.mpr h1)]]
    have hba := (roundTo_bounds 4 (stop_loss_raw p a)).1
    have hbb := (roundTo_bounds 4 (stop_loss_raw p b)).2
    have hplow : (1/200 : ℚ) ≤ p / 200 := by linarith
    have hpow : ((10 : ℚ)) ^ 4 = 10000 := by norm_num
    rw [hpow] at hba hbb
    linarith

/-- Witness for claim C6: price 5, scores 8 and 7. -/
theorem claim_C6_witness :
    ((1/1000 : ℚ) ≤ 5 ∧ (1 : ℚ) ≤ 7 ∧ (8 : ℚ) ≤ 10 ∧ (7 : ℚ) + 1/10 ≤ 8)
    ∧ ((5 : ℚ) - (generate_risk_assessment 5 8).stop_loss
          < 5 - (generate_risk_assessment 5 7).stop_loss
        ∧ (generate_risk_assessment 5 7).take_profit
          ≤ (generate_risk_assessment 5 8).take_profit
        ∧ (generate_risk_assessment 5 7).position_size
          ≤ (generate_risk_assessment 5 8).position_size) :=
  ⟨⟨by norm_num, by norm_num, by norm_num, by norm_num⟩,
    claim_C6 5 8 7 (by norm_num) (by norm_num) (by norm_num) (by norm_num)⟩

/-- Counterexample for claim C6 as stated: at the shared price 1, the
scores 5 + 1/10^7 and 5 are both in range and ordered strictly, yet the
stop-loss values coincide after rounding to four decimal places, so the
strictly-closer property fails for arbitrary score gaps. -/
theorem claim_C6_counterexample :
    (0 : ℚ) < 1 ∧ (5 : ℚ) < 5 + 1/10000000 ∧ (1 : ℚ) ≤ 5 ∧ (5 + 1/10000000 : ℚ) ≤ 10
    ∧ (generate_risk_assessment 1 (5 + 1/10000000)).stop_loss
        = (generate_risk_assessment 1 5).stop_loss := by
  have eb : (generate_risk_assessment 1 5).stop_loss = 73/100 := by
    show roundTo (price_decimals 1) (stop_loss_raw 1 5) = 73/100
    rw [show price_decimals 1 = 4 by norm_num [price_decimals],
      show stop_loss_raw 1 5 = 73/100 by norm_num [stop_loss_raw, volatility_factor]]
    unfold roundTo
    rw [show (73/100 : ℚ) * 10 ^ 4 = ((7300 : ℤ) : ℚ) by norm_num, pyRound_intCast]
    norm_num
  have ea : (generate_risk_assessment 1 (5 + 1/10000000)).stop_loss = 73/100 := by
    show roundTo (price_decimals 1) (stop_loss_raw 1 (5 + 1/10000000)) = 73/100
    rw [show price_decimals 1 = 4 by norm_num [price_decimals],
      show stop_loss_raw 1 (5 + 1/10000000) = 146000001/200000000 by
        norm_num [stop_loss_raw, volatility_factor]]
    unfold roundTo
    rw [show (146000001/200000000 : ℚ) * 10 ^ 4 = 146000001/20000 by norm_num,
      pyRound_eq_low (z := 7300) (by norm_num) (by norm_num)]
    norm_num
  exact ⟨by norm_num, by norm_num, by norm_num, by norm_num, by rw [ea, eb]⟩

/-- Claim C7: for positive price and ai_score in range, the denominator
of the risk-reward division is strictly positive, and the reported
risk_reward is nonnegative and at least the floor of 1. -/
theorem claim_C7 (p s : ℚ) (hp : 0 < p) (hs1 : 1 ≤ s) (hs2 : s ≤ 10) :
    0 < p - stop_loss_raw p s
    ∧ 0 ≤ (generate_risk_assessment p s).risk_reward
    ∧ 1 ≤ (generate_risk_assessment p s).risk_reward := by
  have hraw_sl : p - stop_loss_raw p s = p * (0.02 + (10 - s) / 20) := by
    unfold stop_loss_raw volatility_factor; ring
  have hfac : (0 : ℚ) < 0.02 + (10 - s) / 20 := by
    rw [show (0.02 : ℚ) = 1/50 by norm_num]; linarith
  have hden : 0 < p - stop_loss_raw p s := by
    rw [hraw_sl]; exact mul_pos hp hfac
  have hrr : (generate_risk_assessment p s).risk_reward
      = roundTo 2 (max 1 (risk_reward_raw p s)) := rfl
  have h2 : (1 : ℚ) ≤ roundTo 2 (max 1 (risk_reward_raw p s)) := by
    calc (1 : ℚ) = roundTo 2 1 := (roundTo_one_eq 2).symm
      _ ≤ _ := roundTo_mono 2 (le_max_left 1 _)
  exact ⟨hden, by rw [hrr]; linarith, by rw [hrr]; exact h2⟩

/-- Witness for claim C7: the scenario price 5 and score 7. -/
theorem claim_C7_witness :
    ((0 : ℚ) < 5 ∧ (1 : ℚ) ≤ 7 ∧ (7 : ℚ) ≤ 10)
    ∧ (0 < (5 : ℚ) - stop_loss_raw 5 7
        ∧ 0 ≤ (generate_risk_assessment 5 7).risk_reward
        ∧ 1 ≤ (generate_risk_assessment 5 7).risk_reward) :=
  ⟨⟨by norm_num, by norm_num, by norm_num⟩,
    claim_C7 5 7 (by norm_num) (by norm_num) (by norm_num)⟩

theorem fetch_go_fail (oc : ℕ → Option (List RowX)) (mr : ℕ)
    (hfail : ∀ i, i < mr → attempt_result oc i = none) :
    ∀ fuel attempt, attempt + fuel = mr → 1 ≤ fuel →
      fetch_go oc mr attempt fuel
        = { result := .error ()
            sleeps := (List.range' attempt (fuel - 1)).map (fun i => 3 ^ i)
            attempts := fuel } := by
  intro fuel
  induction fuel with
  | zero => intro attempt _ h1; exact absurd h1 (by norm_num)
  | succ k ih =>
    intro attempt hsum _
    rw [fetch_go, hfail attempt (by omega)]
    by_cases hk : k = 0
    · subst hk
      rw [if_pos (by omega)]
      simp [List.range']
    · rw [if_neg (by omega)]
      rw [ih (attempt + 1) (by omega) (by omega)]
      have hr : List.range' attempt k = attempt :: List.range' (attempt + 1) (k - 1) := by
        cases k with
        | zero => exact absurd rfl hk
        | succ m => exact List.range'_succ attempt m 1
      simp [hr]

theorem chain_lt_pow3 (a n : ℕ) :
    List.Chain' (· < ·) ((List.range' a n).map (fun i => 3 ^ i)) :=
  List.Pairwise.chain'
    (List.Pairwise.map _ (fun x y hxy => Nat.pow_lt_pow_right (by norm_num) hxy)
      (List.pairwise_lt_range' a n))

/-- Claim C8 (amended): if every attempt fails and max_retries is at
least one, fetch_data raises after exactly max_retries attempts, never
more, and the backoff sleeps are 3^0, 3^1, ..., strictly increasing
(tripling); with max_retries = 0 the loop never runs and an empty frame
is returned instead of an exception. -/
theorem claim_C8 (oc : ℕ → Option (List RowX)) (mr : ℕ) (hmr : 1 ≤ mr)
    (hfail : ∀ i, i < mr → attempt_result oc i = none) :
    (fetch_data oc mr).result = Except.error ()
    ∧ (fetch_data oc mr).attempts = mr
    ∧ (fetch_data oc mr).sleeps = (List.range (mr - 1)).map (fun i => 3 ^ i)
    ∧ List.Chain' (· < ·) (fetch_data oc mr).sleeps := by
  have h := fetch_go_fail oc mr hfail mr 0 (by omega) hmr
  unfold fetch_data
  rw [h]
  refine ⟨rfl, rfl, ?_, chain_lt_pow3 0 (mr - 1)⟩
  rw [List.range_eq_range' (mr - 1)]

/-- Witness for claim C8: three attempts, all failing. -/
theorem claim_C8_witness :
    ((1 : ℕ) ≤ 3 ∧ ∀ i, i < 3 → attempt_result (fun _ => none) i = none)
    ∧ ((fetch_data (fun _ => none) 3).result = Except.error ()
        ∧ (fetch_data (fun _ => none) 3).attempts = 3
        ∧ (fetch_data (fun _ => none) 3).sleeps = (List.range 2).map (fun i => 3 ^ i)
        ∧ List.Chain' (· < ·) (fetch_data (fun _ => none) 3).sleeps) :=
  ⟨⟨by norm_num, fun _ _ => rfl⟩,
    claim_C8 (fun _ => none) 3 (by norm_num) (fun _ _ => rfl)⟩

/-- Counterexample for claim C8 as stated: with max_retries = 0, every
attempt fails vacuously, yet fetch_data raises nothing — the loop body
never runs and an empty frame is returned. -/
theorem claim_C8_counterexample :
    (∀ i, i < 0 → attempt_result (fun _ => none) i = none)
    ∧ (fetch_data (fun _ => none) 0).result = Except.ok []
    ∧ (fetch_data (fun _ => none) 0).attempts = 0
    ∧ (fetch_data (fun _ => none) 0).result ≠ Except.error () := by
  refine ⟨fun i hi => absurd hi (Nat.not_lt_zero i), rfl, rfl, ?_⟩
  intro hcontra
  exact Except.noConfusion hcontra

/-- Claim C9 (amended): when the fetch stage fails fatally, run_scan
returns the empty list — but that is the very same value a successful
scan with no matching assets returns, so no fatal-error signal is
available at the caller interface (only the printed message differs). -/
theorem claim_C9 (oc : ℕ → Option (List RowX)) (mr : ℕ) (c : Criteria) (ind : ℕ → Ind)
    (lg : ℚ → ℚ) (tf : ℚ) (jit : ℕ → ℚ) (hmr : 1 ≤ mr)
    (hfail : ∀ i, i < mr → attempt_result oc i = none) :
    run_scan oc mr c ind lg tf jit = [] := by
  have h := fetch_go_fail oc mr hfail mr 0 (by omega) hmr
  unfold run_scan fetch_data
  rw [h]

/-- Witness for claim C9: five failing attempts yield an empty scan. -/
theorem claim_C9_witness :
    ((1 : ℕ) ≤ 5 ∧ ∀ i, i < 5 → attempt_result (fun _ => none) i = none)
    ∧ run_scan (fun _ => none) 5 scanner_criteria (fun _ => exInd) exLog 0 (fun _ => 0) = [] :=
  ⟨⟨by norm_num, fun _ _ => rfl⟩,
    claim_C9 (fun _ => none) 5 scanner_criteria (fun _ => exInd) exLog 0 (fun _ => 0)
      (by norm_num) (fun _ _ => rfl)⟩

/-- Counterexample for claim C9 as stated: the fatally failing scan and
the successful scan that matches nothing return the very same value, so
the fatal error is not distinguishable at the caller interface. -/
theorem claim_C9_counterexample :
    run_scan (fun _ => none) 5 scanner_criteria (fun _ => exInd) exLog 0 (fun _ => 0)
      = run_scan (fun _ => some [badRow]) 5 scanner_criteria (fun _ => exInd) exLog 0
          (fun _ => 0)
    ∧ run_scan (fun _ => none) 5 scanner_criteria (fun _ => exInd) exLog 0 (fun _ => 0)
      = [] := by
  have hfailrun : run_scan (fun _ => none) 5 scanner_criteria (fun _ => exInd) exLog 0
      (fun _ => 0) = [] := by
    have h := fetch_go_fail (fun _ => none) 5 (fun _ _ => rfl) 5 0 (by omega) (by omega)
    unfold run_scan fetch_data
    rw [h]
  have happ : apply_filters scanner_criteria (fun _ => exInd) [badRow] = [] := by
    norm_num [apply_filters, passes_coarse, coerce_row, to_num, scanner_criteria, jge, jle,
      badRow, List.filter]
  have hsucc : run_scan (fun _ => some [badRow]) 5 scanner_criteria (fun _ => exInd) exLog 0
      (fun _ => 0) = [] := by
    have hf : (fetch_data (fun _ => some [badRow]) 5).result = Except.ok [badRow] := rfl
    unfold run_scan
    rw [hf]
    simp [happ]
  exact ⟨by rw [hfailrun, hsucc], hfailrun⟩

theorem heap_read_append (h : List Df) (d : Df) (i : ℕ) (hi : i < h.length) :
    heap_read (h ++ [d]) i = heap_read h i := by
  unfold heap_read
  exact List.getD_append h [d] [] i hi

theorem heap_read_write_ne (h : List Df) (j : ℕ) (d : Df) (i : ℕ) (hij : i ≠ j) :
    heap_read (heap_write h j d) i = heap_read h i := by
  unfold heap_read heap_write
  rw [List.getD_eq_getElem?_getD, List.getElem?_set_ne (by omega), ← List.getD_eq_getElem?_getD]

/-- Claim C10: apply_filters never mutates the callers frame: for every
heap and every valid handle, the frame held at that handle is unchanged
(same rows, same column values) after the call; all in-place writes hit
frames allocated inside the call. -/
theorem claim_C10 (c : Criteria) (ind : ℕ → Ind) (h : List Df) (src : ℕ)
    (hsrc : src < h.length) :
    heap_read (apply_filters_heap c ind h src).1 src = heap_read h src := by
  have l1 : (afh1 h src).length = h.length + 1 := by simp [afh1]
  have l2 : (afh2 h src).length = h.length + 1 := by simp [afh2, heap_write, l1]
  have l3 : (afh3 c h src).length = h.length + 2 := by simp [afh3, l2]
  have l4 : (afh4 c h src).length = h.length + 3 := by simp [afh4, l3]
  have l5 : (afh5 c ind h src).length = h.length + 3 := by simp [afh5, heap_write, l4]
  have r1 : heap_read (afh1 h src) src = heap_read h src :=
    heap_read_append h _ src hsrc
  have r2 : heap_read (afh2 h src) src = heap_read (afh1 h src) src :=
    heap_read_write_ne _ _ _ _ (by omega)
  have r3 : heap_read (afh3 c h src) src = heap_read (afh2 h src) src :=
    heap_read_append _ _ src (by omega)
  have r4 : heap_read (afh4 c h src) src = heap_read (afh3 c h src) src :=
    heap_read_append _ _ src (by omega)
  have r5 : heap_read (afh5 c ind h src) src = heap_read (afh4 c h src) src :=
    heap_read_write_ne _ _ _ _ (by omega)
  have r6 : heap_read (afh6 c ind h src) src = heap_read (afh5 c ind h src) src :=
    heap_read_append _ _ src (by omega)
  unfold apply_filters_heap
  split_ifs
  · rfl
  · show heap_read (afh4 c h src) src = heap_read h src
    rw [r4, r3, r2, r1]
  · show heap_read (afh6 c ind h src) src = heap_read h src
    rw [r6, r5, r4, r3, r2, r1]

/-- Witness for claim C10: a one-frame heap holding the scenario row is
unchanged by the call. -/
theorem claim_C10_witness :
    0 < ([[exRow]] : List Df).length
    ∧ heap_read (apply_filters_heap scanner_criteria (fun _ => exInd) [[exRow]] 0).1 0
        = heap_read [[exRow]] 0 :=
  ⟨by norm_num,
    claim_C10 scanner_criteria (fun _ => exInd) [[exRow]] 0 (by norm_num)⟩

end CryptoScanner
